import Mathlib

/-!
Verification of the chunking-and-multi-pass-summarization pipeline of
`src/app.py` (Text-Summarization repository).

The embedding models, faithfully to the source:
* the greedy transcript chunker inside `get_youtube_transcript`
  (lines 177-198): timestamped lines are indivisible units appended to the
  current chunk until the 4000-character budget would be exceeded, with the
  literal separator `"\n---\n"` emitted between closed chunks;
* `generate_summary` (lines 221-254): split on the separator, skip
  whitespace-only chunks, one LLM call per remaining chunk with
  `prompt_template`, then either a single reduce call with `final_prompt`
  on the blank-line join of the chunk summaries, the single summary
  returned verbatim, or (empty case) the caught `IndexError` turned into
  the string `"Error generating summary: list index out of range"`;
* `get_video_duration` / the 30-minute duration policy (lines 135-160);
* the `summarize_button` handler (lines 276-364): substring sniffing for
  `"Error"` / `"No transcript"`, incremental rendering of the summary and
  the plain-text download before the PDF is built, and the Latin-1 encode
  of the PDF buffer whose failure is caught by the handler's blanket
  `except` clause.

Strings are `List Char`; the LLM collaborator is a black-box total
function `List Char × List Char → List Char` taking an instruction
template and the text, matching the spec's `complete(promptTemplate, text)`
interface.  Timestamps are rationals (Python floats modelled exactly up to
binary-float rounding, which no claim depends on).
-/

namespace TextSummarization

/-- Characters removed by Python's `str.strip()` (used at line 231:
`if chunk.strip():`). -/
def isPySpace (c : Char) : Bool :=
  c = ' ' || c = '\t' || c = '\n' || c = '\r' || c = '\x0b' || c = '\x0c'

/-- Python `str.strip()`: drop leading and trailing whitespace. -/
def py_strip (s : List Char) : List Char :=
  ((s.dropWhile isPySpace).reverse.dropWhile isPySpace).reverse

/-- The chunk separator emitted at line 188 and split on at line 228. -/
def sepStr : List Char := "\n---\n".data

/-- Python `content.split("\n---\n")` (line 228): leftmost, non-overlapping
occurrences of the five-character separator are removed and the pieces
between them returned; `"".split(sep) = [""]`. -/
def splitSep : List Char → List (List Char)
  | '\n' :: '-' :: '-' :: '-' :: '\n' :: rest => [] :: splitSep rest
  | c :: rest =>
    match splitSep rest with
    | [] => [[c]]
    | h :: t => (c :: h) :: t
  | [] => [[]]

/-- Join a list of strings with a separator between consecutive elements
(Python sep-join of the pieces). -/
def join_with (sep : List Char) : List (List Char) → List Char
  | [] => []
  | [x] => x
  | x :: xs => x ++ sep ++ join_with sep xs

/-- The chunk accumulation loop of `get_youtube_transcript`
(lines 183-196), viewed as the list of chunks it closes: `current` is
`current_chunk` (whose length the source tracks in `chunk_size`); a unit
that would push the chunk past the budget `B` closes the chunk and starts
a new one with that unit; the final `current_chunk` is appended at
line 196. -/
def chunkAux (B : Nat) (current : List Char) : List (List Char) → List (List Char)
  | [] => [current]
  | u :: rest =>
    if B < current.length + u.length then current :: chunkAux B u rest
    else chunkAux B (current ++ u) rest

/-- The chunks the source's loop produces for a unit list, starting from
the empty `current_chunk`. -/
def chunkList (B : Nat) (units : List (List Char)) : List (List Char) :=
  chunkAux B [] units

/-- The same loop viewed as the flat `formatted_text` string the source
actually builds: closed chunks followed by `"\n---\n"`, then the final
chunk (lines 178-196). -/
def formatAux (B : Nat) (current : List Char) : List (List Char) → List Char
  | [] => current
  | u :: rest =>
    if B < current.length + u.length then current ++ sepStr ++ formatAux B u rest
    else formatAux B (current ++ u) rest

/-- `formatted_text` as returned at line 198 for a list of units. -/
def formatChunks (B : Nat) (units : List (List Char)) : List Char :=
  formatAux B [] units

/-- `max_chunk_size = 4000` (line 181). -/
def max_chunk_size : Nat := 4000

/-- `prompt_template` (lines 257-270), the first-pass instruction template,
transcribed exactly (leading newline, trailing spaces, final newline). -/
def prompt_template : List Char :=
  "\nPlease provide a detailed and comprehensive summary of the following content in 800-1000 words. \nInclude:\n1. Main points and key ideas\n2. Important details and examples\n3. Technical concepts (if any)\n4. Key conclusions or takeaways\n5. Supporting arguments or evidence\n\nDo not add information that is not present in the original text.\nIf the content is technical, maintain the technical accuracy. If it\x27s a conversation, preserve the main discussion points.\n\nContent: {text}\n".data

/-- The reduce-pass template `final_prompt` built at lines 240-246,
transcribed exactly from the triple-quoted literal (trailing space on the
first line, sixteen-space indentation of the continuation lines). -/
def final_prompt : List Char :=
  "Create a coherent and concise final summary of the following content in 300 words. \n                Combine the key points and main ideas from all sections:\n                Content: {text}\n                ".data

/-- The string `generate_summary` returns when the empty `all_summaries`
list makes `all_summaries[0]` raise `IndexError`, caught at line 253 and
formatted by `f"Error generating summary: {str(e)}"`. -/
def index_error_msg : List Char :=
  "Error generating summary: list index out of range".data

/-- The blank-line separator `"\n\n"` used to join the chunk summaries at
line 248. -/
def blank_sep : List Char := "\n\n".data

/-- Result of `generate_summary` paired with the log of LLM calls it made,
each call a `(template, text)` pair per the `complete(promptTemplate, text)`
collaborator interface. -/
structure GenResult where
  result : List Char
  calls : List (List Char × List Char)

/-- The chunks of every document, in order (lines 226-228:
`content.split("\n---\n")` per document). -/
def doc_chunks (docs : List (List Char)) : List (List Char) :=
  (docs.map splitSep).flatten

/-- The chunks surviving the `if chunk.strip():` test at line 231. -/
def nonblank_chunks (docs : List (List Char)) : List (List Char) :=
  (doc_chunks docs).filter (fun c => !(py_strip c).isEmpty)

/-- `all_summaries` (lines 225-235): one first-pass LLM call per surviving
chunk, in document-and-chunk order. -/
def segment_summaries (docs : List (List Char))
    (llm : List Char × List Char → List Char) : List (List Char) :=
  (nonblank_chunks docs).map (fun c => llm (prompt_template, c))

/-- The log of the first-pass LLM calls made while building
`all_summaries`. -/
def first_pass_calls (docs : List (List Char)) : List (List Char × List Char) :=
  (nonblank_chunks docs).map (fun c => (prompt_template, c))

/-- `generate_summary` (lines 221-254): more than one chunk summary
triggers one further LLM call on their blank-line join with the reduce
template `final_prompt`; exactly one is returned verbatim
(`all_summaries[0]`); none makes `all_summaries[0]` raise `IndexError`,
which the `except` at line 253 converts to an error string. -/
def generate_summary (docs : List (List Char))
    (llm : List Char × List Char → List Char) : GenResult :=
  let summaries := segment_summaries docs llm
  if 1 < summaries.length then
    let composite := join_with blank_sep summaries
    ⟨llm (final_prompt, composite),
     first_pass_calls docs ++ [(final_prompt, composite)]⟩
  else
    match summaries with
    | s :: _ => ⟨s, first_pass_calls docs⟩
    | [] => ⟨index_error_msg, first_pass_calls docs⟩

/-- One fetched transcript entry: `part.start` (seconds; a Python float,
modelled as a rational) and `part.text`. -/
structure TranscriptPart where
  start : ℚ
  text : List Char

/-- `get_video_duration` (lines 135-148): the duration probe lists the
video's transcripts and fetches the **English** one
(`find_transcript(["en"])`); any failure on that path — no English
transcript, a failed listing or fetch — hits the bare `except: return 0`
at lines 147-148.  `english` is `some parts` when the English transcript
exists and fetches to `parts`, and `none` on the exception path; an empty
fetch also yields 0 (line 146), otherwise the result is the last entry's
timestamp divided by 60. -/
def get_video_duration (english : Option (List TranscriptPart)) : ℚ :=
  match english with
  | some parts =>
    match parts.getLast? with
    | some p => p.start / 60
    | none => 0
  | none => 0

/-- Python's `{n:02d}`: decimal digits left-padded with `0` to width
two. -/
def pad2 (n : ℤ) : List Char :=
  if 0 ≤ n ∧ n < 10 then '0' :: (toString n).data else (toString n).data

/-- `text_with_timestamp` (line 184):
`f"[{int(part.start//60):02d}:{int(part.start%60):02d}] {part.text}\n"`,
with the minute the floored quotient by 60 and the second the floored
remainder (Python `//` and `%` floor, and `int` then truncates the already
integral results). -/
def text_with_timestamp (p : TranscriptPart) : List Char :=
  "[".data ++ pad2 ⌊p.start / 60⌋ ++ ":".data
    ++ pad2 ⌊p.start - 60 * (⌊p.start / 60⌋ : ℚ)⌋ ++ "] ".data
    ++ p.text ++ "\n".data

/-- Python's `{x:.1f}` applied to the duration at line 160: the rational
rounded to one decimal place (binary-float ties aside, on which no claim
depends). -/
def fmt1 (q : ℚ) : List Char :=
  (toString (round (10 * q) / 10 : ℤ)).data ++ ".".data
    ++ (toString (round (10 * q) % 10 : ℤ)).data

/-- The duration-limit rejection message returned at line 160. -/
def duration_limit_message (d : ℚ) : List Char :=
  "Video duration (".data ++ fmt1 d
    ++ " minutes) exceeds the 30-minute limit. Please use a shorter video or segment.".data

/-- Constant returned at line 155 for an unparseable URL. -/
def invalid_url_msg : List Char := "Invalid YouTube URL".data

/-- Constant returned at line 172 when no transcript object is found. -/
def no_transcript_found_msg : List Char :=
  "No transcript found for this video.".data

/-- Constant returned at line 201 for `TranscriptsDisabled`. -/
def transcripts_disabled_msg : List Char :=
  "Transcripts are disabled for this video.".data

/-- Constant returned at line 203 for `NoTranscriptFound`. -/
def no_transcripts_available_msg : List Char :=
  "No transcripts available for this video.".data

/-- The duration check and transcript formatting of
`get_youtube_transcript` (lines 157-198), for a video whose URL parsed:
the 30-minute check consults `get_video_duration`, i.e. only the English
transcript; the transcript that is then formatted is the English one when
available, otherwise the first fallback transcript (lines 162-169:
`find_transcript(["en"])` with `next(iter(transcript_list), None)` on
failure), and when neither exists the constant message of line 172 is
returned.  On the formatting path every entry is stamped with its
timestamp and chunked greedily under `max_chunk_size`. -/
def get_youtube_transcript (english fallback : Option (List TranscriptPart)) :
    List Char :=
  let duration_minutes := get_video_duration english
  if 30 < duration_minutes then duration_limit_message duration_minutes
  else
    match english with
    | some parts => formatChunks max_chunk_size (parts.map text_with_timestamp)
    | none =>
      match fallback with
      | some parts => formatChunks max_chunk_size (parts.map text_with_timestamp)
      | none => no_transcript_found_msg

/-- Is `needle` a leading substring of `hay`? -/
def startsWith : List Char → List Char → Bool
  | [], _ => true
  | _ :: _, [] => false
  | c :: cs, d :: ds => c == d && startsWith cs ds

/-- Python's substring test `needle in hay` (used at lines 295 and 308). -/
def containsSub (needle : List Char) : List Char → Bool
  | [] => needle.isEmpty
  | c :: rest => startsWith needle (c :: rest) || containsSub needle rest

/-- The sniffed substring `"Error"` (lines 295, 308). -/
def errWord : List Char := "Error".data

/-- The sniffed substring `"No transcript"` (line 295). -/
def noTransWord : List Char := "No transcript".data

/-- The Latin-1 serialization of the PDF at line 349
(`pdf.output(dest='S').encode('latin-1')`): one byte per character exactly
when every character of the content lies in Latin-1 (the title and footer
the source adds around the summary are ASCII); otherwise the encode
raises, to be caught by the handler's blanket `except`. -/
def pdfLatin1Encode (s : List Char) : Option (List Nat) :=
  if s.all (fun c => c.toNat ≤ 255) then some (s.map Char.toNat) else none

/-- The observable outcome of one run of the `summarize_button` handler
(lines 293-364), with the Streamlit elements in rendering order: an
`st.error` message, the displayed summary, the plain-text download
payload, the PDF download payload, whether the blanket `except` reported
an exception (`st.exception`), and the LLM calls made. -/
structure HandlerResult where
  errorMsg : Option (List Char)
  summaryShown : Option (List Char)
  textDownload : Option (List Char)
  pdfDownload : Option (List Nat)
  exceptionShown : Bool
  llmCalls : List (List Char × List Char)

/-- The YouTube branch of the `summarize_button` handler (lines 293-357):
sniff the fetched transcript text for `"Error"` / `"No transcript"`; when
it passes, wrap it as the single document, run `generate_summary`, sniff
the result for `"Error"`; on success display the summary and offer the
plain-text download (both rendered before the PDF is built), then build
the PDF, whose Latin-1 encode failure is caught by the blanket `except` at
line 361 after those earlier elements have rendered. -/
def summarize_button (transcript_text : List Char)
    (llm : List Char × List Char → List Char) : HandlerResult :=
  if containsSub errWord transcript_text
      || containsSub noTransWord transcript_text then
    ⟨some transcript_text, none, none, none, false, []⟩
  else
    let g := generate_summary [transcript_text] llm
    if containsSub errWord g.result then
      ⟨some g.result, none, none, none, false, g.calls⟩
    else
      match pdfLatin1Encode g.result with
      | some bytes => ⟨none, some g.result, some g.result, some bytes, false, g.calls⟩
      | none => ⟨none, some g.result, some g.result, none, true, g.calls⟩

end TextSummarization

namespace TextSummarization

theorem splitSep_ne_nil (s : List Char) : splitSep s ≠ [] := by
  induction s using splitSep.induct with
  | case1 rest ih => simp [splitSep.eq_1]
  | case2 c rest hguard hnil ih => exact absurd hnil ih
  | case3 c rest hguard h t hsp ih =>
    rw [splitSep.eq_2 c rest hguard, hsp]
    simp
  | case4 => simp [splitSep.eq_3]

theorem join_with_cons_of_ne_nil (sep x : List Char) (l : List (List Char))
    (h : l ≠ []) : join_with sep (x :: l) = x ++ sep ++ join_with sep l := by
  match l with
  | [] => exact absurd rfl h
  | y :: ys => rfl

/-- Rejoining the pieces of `splitSep` with the separator reproduces the
input string exactly. -/
theorem join_with_splitSep (s : List Char) :
    join_with sepStr (splitSep s) = s := by
  induction s using splitSep.induct with
  | case1 rest ih =>
    rw [splitSep.eq_1]
    rw [join_with_cons_of_ne_nil _ _ _ (splitSep_ne_nil rest), ih]
    rfl
  | case2 c rest hguard hnil ih => exact absurd hnil (splitSep_ne_nil rest)
  | case3 c rest hguard h t hsp ih =>
    rw [splitSep.eq_2 c rest hguard, hsp]
    rw [hsp] at ih
    show join_with sepStr ((c :: h) :: t) = c :: rest
    cases t with
    | nil =>
      simp only [join_with] at ih ⊢
      rw [ih]
    | cons y ys =>
      rw [join_with_cons_of_ne_nil _ _ _ (by simp)] at ih ⊢
      simp only [List.cons_append]
      rw [ih]
  | case4 => rfl

theorem chunkAux_ne_nil (B : Nat) (current : List Char)
    (units : List (List Char)) : chunkAux B current units ≠ [] := by
  induction units generalizing current with
  | nil => simp [chunkAux]
  | cons u rest ih =>
    rw [chunkAux]
    split
    · simp
    · exact ih _

theorem join_chunkAux (B : Nat) (units : List (List Char)) :
    ∀ current, (chunkAux B current units).flatten = current ++ units.flatten := by
  induction units with
  | nil => intro current; simp [chunkAux]
  | cons u rest ih =>
    intro current
    rw [chunkAux]
    split
    · simp [ih, List.append_assoc]
    · simp [ih, List.append_assoc]

theorem join_with_chunkAux (B : Nat) (units : List (List Char)) :
    ∀ current, join_with sepStr (chunkAux B current units) = formatAux B current units := by
  induction units with
  | nil => intro current; rfl
  | cons u rest ih =>
    intro current
    rw [chunkAux, formatAux]
    split
    · rw [join_with_cons_of_ne_nil _ _ _ (chunkAux_ne_nil B u rest), ih]
    · exact ih _

/-- C1 — Chunk reconstruction: for every input (as its list of indivisible
units) and every budget, (i) concatenating the chunker's output segments in
order reproduces the concatenation of the units exactly — no character
dropped or duplicated; (ii) joining the segments with the emitted
`"\n---\n"` separators is exactly the `formatted_text` string the source
returns; (iii) splitting that string back on the separator (as
`generate_summary` does) and rejoining with the separators reproduces it
exactly. -/
theorem chunk_reconstruction (B : Nat) (units : List (List Char)) :
    (chunkList B units).flatten = units.flatten
    ∧ join_with sepStr (chunkList B units) = formatChunks B units
    ∧ join_with sepStr (splitSep (formatChunks B units)) = formatChunks B units := by
  refine ⟨?_, ?_, ?_⟩
  · simpa using join_chunkAux B units []
  · exact join_with_chunkAux B units []
  · exact join_with_splitSep _

theorem chunkAux_mem (B : Nat) (units : List (List Char)) :
    ∀ current c, c ∈ chunkAux B current units →
      c = current ∨ c.length ≤ B ∨ (c ∈ units ∧ B < c.length) := by
  induction units with
  | nil =>
    intro current c hc
    simp [chunkAux] at hc
    exact Or.inl hc
  | cons u rest ih =>
    intro current c hc
    rw [chunkAux] at hc
    split at hc
    · rcases List.mem_cons.mp hc with h | h
      · exact Or.inl h
      · rcases ih u c h with h' | h' | h'
        · subst h'
          rcases le_or_lt c.length B with hle | hlt
          · exact Or.inr (Or.inl hle)
          · exact Or.inr (Or.inr ⟨List.mem_cons_self _ _, hlt⟩)
        · exact Or.inr (Or.inl h')
        · exact Or.inr (Or.inr ⟨List.mem_cons_of_mem _ h'.1, h'.2⟩)
    · rcases ih (current ++ u) c hc with h' | h' | h'
      · subst h'
        rename_i hnot
        exact Or.inr (Or.inl (by simpa using Nat.le_of_not_lt hnot))
      · exact Or.inr (Or.inl h')
      · exact Or.inr (Or.inr ⟨List.mem_cons_of_mem _ h'.1, h'.2⟩)

theorem oversized_current_emitted (B : Nat) (units : List (List Char))
    (current : List Char) (h : B < current.length) :
    current ∈ chunkAux B current units := by
  cases units with
  | nil => simp [chunkAux]
  | cons u rest =>
    rw [chunkAux, if_pos (Nat.lt_of_lt_of_le h (Nat.le_add_right _ _))]
    exact List.mem_cons_self _ _

theorem oversized_unit_is_chunk (B : Nat) (units : List (List Char)) :
    ∀ current u, u ∈ units → B < u.length → u ∈ chunkAux B current units := by
  induction units with
  | nil => intro current u hu; exact absurd hu (List.not_mem_nil u)
  | cons v rest ih =>
    intro current u hu hover
    rcases List.mem_cons.mp hu with h | h
    · subst h
      rw [chunkAux,
        if_pos (Nat.lt_of_lt_of_le hover (Nat.le_add_left _ _))]
      exact List.mem_cons_of_mem _ (oversized_current_emitted B rest u hover)
    · rw [chunkAux]
      split
      · exact List.mem_cons_of_mem _ (ih v u h hover)
      · exact ih _ u h hover

/-- C2 — Chunk bound: every segment the chunker produces either has length
at most the budget `B`, or is exactly one whole oversized indivisible unit
(so never split mid-word); and conversely every unit longer than `B`
becomes its own segment. -/
theorem chunk_bound (B : Nat) (units : List (List Char)) :
    (∀ c ∈ chunkList B units, c.length ≤ B ∨ (c ∈ units ∧ B < c.length))
    ∧ (∀ u ∈ units, B < u.length → u ∈ chunkList B units) := by
  constructor
  · intro c hc
    rcases chunkAux_mem B units [] c hc with h | h | h
    · subst h; exact Or.inl (Nat.zero_le B)
    · exact Or.inl h
    · exact Or.inr h
  · intro u hu hover
    exact oversized_unit_is_chunk B units [] u hu hover

theorem nonblank_of_summaries_nil (docs : List (List Char))
    (llm : List Char × List Char → List Char)
    (h : segment_summaries docs llm = []) : nonblank_chunks docs = [] := by
  unfold segment_summaries at h
  exact List.map_eq_nil_iff.mp h

theorem nonblank_of_summaries_one (docs : List (List Char))
    (llm : List Char × List Char → List Char) (s : List Char)
    (h : segment_summaries docs llm = [s]) :
    ∃ c, nonblank_chunks docs = [c] ∧ llm (prompt_template, c) = s := by
  unfold segment_summaries at h
  cases hnb : nonblank_chunks docs with
  | nil => rw [hnb] at h; simp at h
  | cons a l =>
    rw [hnb] at h
    cases l with
    | nil => exact ⟨a, rfl, by simpa using h⟩
    | cons b m => simp at h

theorem generate_summary_of_many (docs : List (List Char))
    (llm : List Char × List Char → List Char)
    (h : 1 < (segment_summaries docs llm).length) :
    generate_summary docs llm =
      ⟨llm (final_prompt, join_with blank_sep (segment_summaries docs llm)),
       first_pass_calls docs
         ++ [(final_prompt, join_with blank_sep (segment_summaries docs llm))]⟩ := by
  simp only [generate_summary]
  rw [if_pos h]

theorem generate_summary_of_one (docs : List (List Char))
    (llm : List Char × List Char → List Char) (s : List Char)
    (h : segment_summaries docs llm = [s]) :
    generate_summary docs llm = ⟨s, first_pass_calls docs⟩ := by
  simp only [generate_summary, h]
  rfl

theorem generate_summary_of_none (docs : List (List Char))
    (llm : List Char × List Char → List Char)
    (h : segment_summaries docs llm = []) :
    generate_summary docs llm = ⟨index_error_msg, first_pass_calls docs⟩ := by
  simp only [generate_summary, h]
  rfl

theorem generate_summary_calls_shape (docs : List (List Char))
    (llm : List Char × List Char → List Char) :
    ∃ rest, (generate_summary docs llm).calls = first_pass_calls docs ++ rest := by
  simp only [generate_summary]
  split
  · exact ⟨_, rfl⟩
  · split
    · exact ⟨[], (List.append_nil _).symm⟩
    · exact ⟨[], (List.append_nil _).symm⟩

theorem summarize_button_llmCalls (t : List Char)
    (llm : List Char × List Char → List Char)
    (hck : (containsSub errWord t || containsSub noTransWord t) = false) :
    (summarize_button t llm).llmCalls = (generate_summary [t] llm).calls := by
  simp only [summarize_button]
  rw [if_neg (by simp [hck])]
  split
  · rfl
  · split <;> rfl

/-- C3 — Single-segment short-circuit: when exactly one segment summary is
produced, `generate_summary` returns its text verbatim and the call log
holds exactly that one first-pass call — no reduce-pass LLM call is
made. -/
theorem single_segment_short_circuit (docs : List (List Char))
    (llm : List Char × List Char → List Char) (s : List Char)
    (h : segment_summaries docs llm = [s]) :
    (generate_summary docs llm).result = s
    ∧ (generate_summary docs llm).calls.length = 1
    ∧ (generate_summary docs llm).calls.all
        (fun c => c.1 == prompt_template) = true := by
  obtain ⟨c, hc, hs⟩ := nonblank_of_summaries_one docs llm s h
  have hfp : first_pass_calls docs = [(prompt_template, c)] := by
    unfold first_pass_calls
    rw [hc]
    rfl
  rw [generate_summary_of_one docs llm s h]
  refine ⟨rfl, ?_, ?_⟩ <;> rw [hfp] <;> simp

theorem single_segment_short_circuit_witness :
    segment_summaries ["hello".data] (fun _ => "S".data) = ["S".data]
    ∧ ((generate_summary ["hello".data] (fun _ => "S".data)).result = "S".data
      ∧ (generate_summary ["hello".data] (fun _ => "S".data)).calls.length = 1
      ∧ (generate_summary ["hello".data] (fun _ => "S".data)).calls.all
          (fun c => c.1 == prompt_template) = true) :=
  ⟨by decide, single_segment_short_circuit _ _ _ (by decide)⟩

/-- C4 — Empty input fails explicitly: when no segment summary reaches the
reduce step (empty text, or every chunk whitespace), `generate_summary`
returns the error string produced by the caught `IndexError` — a
non-empty message that the pipeline's failure check recognizes ("Error"
occurs in it) — and the handler reports it via `st.error`, displaying and
offering nothing, rather than silently returning an empty summary. -/
theorem empty_input_fails (t : List Char)
    (llm : List Char × List Char → List Char)
    (hck : (containsSub errWord t || containsSub noTransWord t) = false)
    (h : segment_summaries [t] llm = []) :
    (generate_summary [t] llm).result = index_error_msg
    ∧ index_error_msg ≠ []
    ∧ containsSub errWord index_error_msg = true
    ∧ summarize_button t llm = ⟨some index_error_msg, none, none, none, false, []⟩ := by
  have hnb := nonblank_of_summaries_nil [t] llm h
  have hfp : first_pass_calls [t] = [] := by
    unfold first_pass_calls
    rw [hnb]
    rfl
  have hg : generate_summary [t] llm = ⟨index_error_msg, []⟩ := by
    rw [generate_summary_of_none [t] llm h, hfp]
  refine ⟨by rw [hg], by decide, by decide, ?_⟩
  simp only [summarize_button]
  rw [if_neg (by simp [hck])]
  simp only [hg]
  rw [if_pos (by decide)]

theorem empty_input_fails_witness :
    ((containsSub errWord [] || containsSub noTransWord []) = false
      ∧ segment_summaries [([] : List Char)] (fun _ => "S".data) = [])
    ∧ (generate_summary [([] : List Char)] (fun _ => "S".data)).result
        = index_error_msg :=
  ⟨⟨by decide, by decide⟩,
   (empty_input_fails [] (fun _ => "S".data) (by decide) (by decide)).1⟩

/-- C6 — Order preservation: with more than one segment summary, the
reduce pass receives as its composite text exactly the segment summaries
joined in their original order, separated by a blank line, and that
synthesis call is the final entry of the call log. -/
theorem order_preservation (docs : List (List Char))
    (llm : List Char × List Char → List Char)
    (h : 1 < (segment_summaries docs llm).length) :
    generate_summary docs llm =
      ⟨llm (final_prompt, join_with blank_sep (segment_summaries docs llm)),
       first_pass_calls docs
         ++ [(final_prompt, join_with blank_sep (segment_summaries docs llm))]⟩ :=
  generate_summary_of_many docs llm h

theorem order_preservation_witness :
    1 < (segment_summaries ["A\n---\nB\n---\nC".data]
        (fun p : List Char × List Char => p.2)).length
    ∧ join_with blank_sep (segment_summaries ["A\n---\nB\n---\nC".data]
        (fun p : List Char × List Char => p.2)) = "A\n\nB\n\nC".data
    ∧ generate_summary ["A\n---\nB\n---\nC".data]
        (fun p : List Char × List Char => p.2) =
      ⟨(fun p : List Char × List Char => p.2)
          (final_prompt, join_with blank_sep (segment_summaries
            ["A\n---\nB\n---\nC".data] (fun p : List Char × List Char => p.2))),
       first_pass_calls ["A\n---\nB\n---\nC".data]
         ++ [(final_prompt, join_with blank_sep (segment_summaries
            ["A\n---\nB\n---\nC".data] (fun p : List Char × List Char => p.2)))]⟩ :=
  ⟨by decide, by decide, order_preservation _ _ (by decide)⟩

/-- C7 — Two-template reduce pass: with more than one segment summary the
reducer makes exactly one further LLM call (the log grows by exactly one
entry), exactly one call of the whole log uses the reduce template, and
that reduce template differs from the first-pass template. -/
theorem two_template_reduce (docs : List (List Char))
    (llm : List Char × List Char → List Char)
    (h : 1 < (segment_summaries docs llm).length) :
    (generate_summary docs llm).calls.length
        = (segment_summaries docs llm).length + 1
    ∧ (generate_summary docs llm).calls.countP
        (fun c => c.1 == final_prompt) = 1
    ∧ final_prompt ≠ prompt_template := by
  rw [generate_summary_of_many docs llm h]
  refine ⟨?_, ?_, by decide⟩
  · simp [first_pass_calls, segment_summaries]
  · rw [List.countP_append]
    have h1 : (first_pass_calls docs).countP (fun c => c.1 == final_prompt) = 0 := by
      unfold first_pass_calls
      rw [List.countP_map]
      have h2 : ((fun c : List Char × List Char => c.1 == final_prompt)
          ∘ fun c : List Char => (prompt_template, c)) = fun _ => false := by
        funext c
        simp only [Function.comp_apply]
        exact beq_eq_false_iff_ne.mpr (by decide)
      rw [h2]
      simp
    rw [h1]
    simp

theorem two_template_reduce_witness :
    (generate_summary ["A\n---\nB\n---\nC".data]
        (fun p : List Char × List Char => p.2 ++ "!".data)).calls.length
      = (segment_summaries ["A\n---\nB\n---\nC".data]
        (fun p : List Char × List Char => p.2 ++ "!".data)).length + 1
    ∧ (generate_summary ["A\n---\nB\n---\nC".data]
        (fun p : List Char × List Char => p.2 ++ "!".data)).calls.countP
        (fun c => c.1 == final_prompt) = 1
    ∧ final_prompt ≠ prompt_template :=
  two_template_reduce _ _ (by decide)

theorem chunk_bound_witness :
    (("abcde".data.length ≤ 3 ∨ ("abcde".data ∈ ["ab".data, "abcde".data]
        ∧ 3 < "abcde".data.length))
      ∧ "abcde".data ∈ chunkList 3 ["ab".data, "abcde".data]) :=
  ⟨(chunk_bound 3 ["ab".data, "abcde".data]).1 "abcde".data (by decide),
   (chunk_bound 3 ["ab".data, "abcde".data]).2 "abcde".data (by decide)
     (by decide)⟩

set_option maxRecDepth 4000 in
/-- The duration policy as universally stated fails on the code: for a
video whose only transcript is non-English, the duration probe's English
fetch fails and the bare `except` (lines 147-148) reports duration 0, so a
last timestamp of 1860 s > 1800 s is not rejected — the fallback
transcript is formatted and summarized, and the first-pass LLM call
receives the video's content. -/
theorem duration_policy_counterexample :
    get_youtube_transcript none (some [⟨1860, "hello".data⟩])
        = "[31:00] hello\n".data
    ∧ (prompt_template, "[31:00] hello\n".data) ∈
        (summarize_button
          (get_youtube_transcript none (some [⟨1860, "hello".data⟩]))
          (fun _ => "S".data)).llmCalls := by
  have e1 : ⌊(1860 : ℚ) / 60⌋ = (31 : ℤ) := by norm_num
  have e2 : ⌊(1860 : ℚ) - 60 * ((31 : ℤ) : ℚ)⌋ = (0 : ℤ) := by norm_num
  have hts : text_with_timestamp ⟨1860, "hello".data⟩ = "[31:00] hello\n".data := by
    show "[".data ++ pad2 ⌊(1860 : ℚ) / 60⌋ ++ ":".data
        ++ pad2 ⌊(1860 : ℚ) - 60 * (⌊(1860 : ℚ) / 60⌋ : ℚ)⌋ ++ "] ".data
        ++ "hello".data ++ "\n".data = "[31:00] hello\n".data
    rw [e1, e2]
    decide
  have hm : get_youtube_transcript none (some [⟨1860, "hello".data⟩])
      = "[31:00] hello\n".data := by
    simp only [get_youtube_transcript]
    rw [if_neg (by norm_num [get_video_duration])]
    show formatChunks max_chunk_size
        (([⟨1860, "hello".data⟩] : List TranscriptPart).map text_with_timestamp)
      = "[31:00] hello\n".data
    rw [List.map_cons, List.map_nil, hts]
    decide
  refine ⟨hm, ?_⟩
  rw [hm]
  decide

/-- C5 (amended) — Duration policy: when the duration probe succeeds —
the video's English transcript is available and fetched — and its last
timestamp exceeds 1800 seconds, `get_youtube_transcript` rejects the
video with the descriptive duration-limit message in place of the
formatted transcript, and the whole pipeline run — in particular every
LLM call it makes — is unchanged under arbitrary replacement of the
transcripts' text content, so no LLM summarization call is made on the
video's content.  When the probe instead fails (no English transcript, a
failed fetch), the bare `except` reports duration 0 and the 30-minute
check is bypassed: see the counterexample above. -/
theorem duration_policy (parts : List TranscriptPart) (p : TranscriptPart)
    (fallback fallback' : Option (List TranscriptPart))
    (f : List Char → List Char) (llm : List Char × List Char → List Char)
    (hlast : parts.getLast? = some p) (hdur : 1800 < p.start) :
    get_youtube_transcript (some parts) fallback
        = duration_limit_message (p.start / 60)
    ∧ summarize_button (get_youtube_transcript
          (some (parts.map fun q => ⟨q.start, f q.text⟩)) fallback') llm
      = summarize_button (get_youtube_transcript (some parts) fallback) llm := by
  have h30 : (30 : ℚ) < p.start / 60 := by
    rw [lt_div_iff₀ (by norm_num : (0 : ℚ) < 60)]
    linarith
  have hd : get_video_duration (some parts) = p.start / 60 := by
    show (match parts.getLast? with
      | some q => q.start / 60
      | none => 0) = p.start / 60
    rw [hlast]
  have hmap : (parts.map fun q => (⟨q.start, f q.text⟩ : TranscriptPart)).getLast?
      = some ⟨p.start, f p.text⟩ := by
    rw [List.getLast?_map, hlast]
    rfl
  have hd' : get_video_duration (some (parts.map fun q => ⟨q.start, f q.text⟩))
      = p.start / 60 := by
    show (match (parts.map fun q => (⟨q.start, f q.text⟩ : TranscriptPart)).getLast? with
      | some q => q.start / 60
      | none => 0) = p.start / 60
    rw [hmap]
  have h1 : get_youtube_transcript (some parts) fallback
      = duration_limit_message (p.start / 60) := by
    simp only [get_youtube_transcript]
    rw [hd, if_pos h30]
  have h2 : get_youtube_transcript
      (some (parts.map fun q => ⟨q.start, f q.text⟩)) fallback'
      = duration_limit_message (p.start / 60) := by
    simp only [get_youtube_transcript]
    rw [hd', if_pos h30]
  exact ⟨h1, by rw [h1, h2]⟩

theorem duration_policy_witness :
    ([⟨1900, "hello".data⟩] : List TranscriptPart).getLast?
        = some (⟨1900, "hello".data⟩ : TranscriptPart)
    ∧ (1800 : ℚ) < 1900
    ∧ (get_youtube_transcript (some [⟨1900, "hello".data⟩]) none
        = duration_limit_message ((1900 : ℚ) / 60)
      ∧ summarize_button (get_youtube_transcript
          (some (([⟨1900, "hello".data⟩] : List TranscriptPart).map
            fun q => ⟨q.start, (fun _ => "x".data) q.text⟩))
          (some [⟨2000, "zz".data⟩])) (fun _ => "S".data)
        = summarize_button (get_youtube_transcript
            (some [⟨1900, "hello".data⟩]) none) (fun _ => "S".data)) :=
  ⟨rfl, by norm_num,
   duration_policy [⟨1900, "hello".data⟩] ⟨1900, "hello".data⟩
     none (some [⟨2000, "zz".data⟩])
     (fun _ => "x".data) (fun _ => "S".data) rfl (by norm_num)⟩

/-- C8 — Export independence: on a successful run whose summary contains a
character outside the PDF encoder's Latin-1 range, the summary is still
displayed and the plain-text download is still offered with the full
untruncated summary text (both render before the PDF is built); the PDF
download is absent and its encoding failure is reported through the
handler's catch, so nothing escapes unhandled and the run completes. -/
theorem export_independence (t : List Char)
    (llm : List Char × List Char → List Char)
    (hck : (containsSub errWord t || containsSub noTransWord t) = false)
    (hres : containsSub errWord (generate_summary [t] llm).result = false)
    (hchar : (generate_summary [t] llm).result.all
        (fun c => c.toNat ≤ 255) = false) :
    summarize_button t llm =
      ⟨none, some (generate_summary [t] llm).result,
       some (generate_summary [t] llm).result, none, true,
       (generate_summary [t] llm).calls⟩ := by
  simp only [summarize_button]
  rw [if_neg (by simp [hck]), if_neg (by simp [hres])]
  unfold pdfLatin1Encode
  rw [if_neg (by simp [hchar])]

theorem export_independence_witness :
    summarize_button "hi".data (fun _ => "caf€".data) =
      ⟨none, some (generate_summary ["hi".data] (fun _ => "caf€".data)).result,
       some (generate_summary ["hi".data] (fun _ => "caf€".data)).result, none,
       true, (generate_summary ["hi".data] (fun _ => "caf€".data)).calls⟩ :=
  export_independence _ _ (by decide) (by decide) (by decide)

/-- C9 — Error string-sniffing misclassification: a successful run whose
summary text happens to contain the substring "Error" is classified as a
failure by the handler's string sniffing: the summary is shown through
`st.error` and is neither displayed as a summary nor offered for
download in either format. -/
theorem error_sniffing_misclassification (t : List Char)
    (llm : List Char × List Char → List Char)
    (hck : (containsSub errWord t || containsSub noTransWord t) = false)
    (hres : containsSub errWord (generate_summary [t] llm).result = true) :
    summarize_button t llm =
      ⟨some (generate_summary [t] llm).result, none, none, none, false,
       (generate_summary [t] llm).calls⟩ := by
  simp only [summarize_button]
  rw [if_neg (by simp [hck]), if_pos hres]

theorem error_sniffing_witness :
    summarize_button "hi".data (fun _ => "Watch Error 404, a good film.".data) =
      ⟨some (generate_summary ["hi".data]
          (fun _ => "Watch Error 404, a good film.".data)).result,
       none, none, none, false,
       (generate_summary ["hi".data]
          (fun _ => "Watch Error 404, a good film.".data)).calls⟩ :=
  error_sniffing_misclassification _ _ (by decide) (by decide)

/-- C10 — Unrecognized fetch-error strings become content: any transcript
return value containing neither "Error" nor "No transcript" — such as the
disabled-transcripts message, the invalid-URL message, or the duration
limit rejection — passes the handler's failure check, is wrapped as the
single document, and is itself sent to the first-pass LLM summarization
call as content instead of being reported as a failure. -/
theorem unrecognized_error_becomes_content (t : List Char)
    (llm : List Char × List Char → List Char)
    (herr : containsSub errWord t = false)
    (hnt : containsSub noTransWord t = false)
    (hnb : nonblank_chunks [t] = [t]) :
    (summarize_button t llm).llmCalls = (generate_summary [t] llm).calls
    ∧ (prompt_template, t) ∈ (summarize_button t llm).llmCalls := by
  have hck : (containsSub errWord t || containsSub noTransWord t) = false := by
    rw [herr, hnt]
    rfl
  have hc := summarize_button_llmCalls t llm hck
  refine ⟨hc, ?_⟩
  rw [hc]
  obtain ⟨rest, hrest⟩ := generate_summary_calls_shape [t] llm
  rw [hrest]
  apply List.mem_append_left
  unfold first_pass_calls
  rw [hnb]
  simp

theorem unrecognized_error_witness :
    (containsSub errWord transcripts_disabled_msg = false
      ∧ containsSub noTransWord transcripts_disabled_msg = false
      ∧ nonblank_chunks [transcripts_disabled_msg] = [transcripts_disabled_msg])
    ∧ (prompt_template, transcripts_disabled_msg) ∈
        (summarize_button transcripts_disabled_msg (fun _ => "S".data)).llmCalls :=
  ⟨⟨by decide, by decide, by decide⟩,
   (unrecognized_error_becomes_content transcripts_disabled_msg
      (fun _ => "S".data) (by decide) (by decide) (by decide)).2⟩

end TextSummarization
